import Mathlib

/-!
Shallow embedding of the `fastapi-filter` query-compilation engine
(`src/base.py`, `src/schema.py`) and proofs about its behaviour.

The engine turns flat string request parameters into a compiled query:
a lookup parser splits compound keys `field__op`, a pydantic-style schema
coerces raw string values (operator-dependent: comma-splitting for the
membership operators), and pipeline stages accumulate predicates,
a ranked-search join, an ordering clause and offset/limit pagination
on one query value.
-/

deriving instance DecidableEq for Except

namespace FastapiFilter

/-- Python `str.split('__')` on a character list: non-overlapping,
left-to-right splitting on the two-character delimiter, as used on
parameter keys by `BaseFilter.filter`. -/
def splitDunderChars : List Char → List (List Char)
  | '_' :: '_' :: rest => [] :: splitDunderChars rest
  | c :: rest =>
    match splitDunderChars rest with
    | g :: gs => (c :: g) :: gs
    | [] => [[c]]
  | [] => [[]]

/-- Python `str.split('__')` on strings. -/
def pySplitDunder (s : String) : List String :=
  (splitDunderChars s.data).map fun cs => String.mk cs

/-- Python `str.split(',')` on a character list, as used on raw values by the
schema validator for the membership operators. -/
def splitCommaChars : List Char → List (List Char)
  | ',' :: rest => [] :: splitCommaChars rest
  | c :: rest =>
    match splitCommaChars rest with
    | g :: gs => (c :: g) :: gs
    | [] => [[c]]
  | [] => [[]]

/-- Python `str.split(',')` on strings. -/
def pySplitComma (s : String) : List String :=
  (splitCommaChars s.data).map fun cs => String.mk cs

/-- Accumulate decimal digits; `none` on the first non-digit character. -/
def digitsToNat (acc : Nat) : List Char → Option Nat
  | [] => some acc
  | c :: rest =>
    if c.isDigit then digitsToNat (acc * 10 + (c.toNat - 48)) rest else none

/-- Model of pydantic's lax string→int coercion (an optional sign followed by
decimal digits parses; anything else is a coercion failure). -/
def parsePyInt (s : String) : Option Int :=
  match s.data with
  | [] => none
  | '-' :: rest =>
    if rest.isEmpty then none else (digitsToNat 0 rest).map fun n => -(n : Int)
  | '+' :: rest =>
    if rest.isEmpty then none else (digitsToNat 0 rest).map fun n => (n : Int)
  | cs => (digitsToNat 0 cs).map fun n => (n : Int)

/-- Association-list lookup, first match wins (Python `dict.get` on an
already-deduplicated dict, and `ORM_LOOKUP_MAPPING[...]`). -/
def assocGet? {α : Type} (t : List (String × α)) (k : String) : Option α :=
  (t.find? fun p => p.1 == k).map (·.2)

/-- The last value bound to `k` in a raw pair list (Python dict construction
keeps the last value for a repeated key). -/
def lastVal? (ps : List (String × String)) (k : String) : Option String :=
  (ps.reverse.find? fun p => p.1 == k).map (·.2)

/-- Helper for `dictItems`: emit each key the first time it is seen, bound to
its last observed value, skipping keys already emitted. -/
def dictItemsAux (seen : List String) : List (String × String) → List (String × String)
  | [] => []
  | (k, v) :: rest =>
    if k ∈ seen then dictItemsAux seen rest
    else (k, (lastVal? rest k).getD v) :: dictItemsAux (k :: seen) rest

/-- Model of starlette's `QueryParams.items()` (an `ImmutableMultiDict` whose
`_dict` is a Python dict comprehension over the raw pairs): keys keep
first-occurrence order and each key maps to its last observed value. -/
def dictItems (ps : List (String × String)) : List (String × String) :=
  dictItemsAux [] ps

/-- Python dict lookup on the deduplicated params: the last observed value. -/
def dictGet? (ps : List (String × String)) (k : String) : Option String :=
  lastVal? ps k

/-- Declared value type of a filter field (the pydantic annotation). -/
inductive FieldType
  | int
  | str
deriving DecidableEq, Repr

/-- A coerced scalar of the declared type. -/
inductive Scalar
  | int (i : Int)
  | str (s : String)
deriving DecidableEq, Repr

/-- A validated value: a scalar, or a sequence of scalars for the membership
operators (`List[InitialTypeAnnotation]` in `schema.py`). -/
inductive Value
  | scalar (v : Scalar)
  | seq (vs : List Scalar)
deriving DecidableEq, Repr

/-- `FilterFieldInfo` from `schema.py`: declared type plus the `orderable` and
`searchable` capability flags (both default `true` in `FilterField`). -/
structure FilterFieldInfo where
  ftype : FieldType
  orderable : Bool := true
  searchable : Bool := true
deriving DecidableEq, Repr

/-- A Filter Schema: the ordered mapping `model_fields : name → FilterFieldInfo`. -/
structure FilterSchema where
  model_fields : List (String × FilterFieldInfo)
deriving DecidableEq, Repr

def FilterSchema.lookup (s : FilterSchema) (name : String) : Option FilterFieldInfo :=
  assocGet? s.model_fields name

/-- `field_name in schema.model_fields`. -/
def FilterSchema.containsField (s : FilterSchema) (name : String) : Bool :=
  (s.lookup name).isSome

/-- `ORM_LOOKUP_MAPPING` from `base.py`: operator suffix → ORM method name.
Note there is no `eq` entry; equality arises only from keys without a
delimiter, as the literal method name `__eq__`. -/
def ORM_LOOKUP_MAPPING : List (String × String) :=
  [("neq", "__ne__"), ("gt", "__gt__"), ("gte", "__ge__"), ("lt", "__lt__"),
   ("lte", "__le__"), ("in", "in_"), ("not_in", "not_in"),
   ("regexp", "regexp_match")]

/-- `LookupInfo` from `schema.py`: parsed field name, resolved ORM lookup
method name, and the raw string value. -/
structure LookupInfo where
  field_name : String
  lookup : String
  value : String
deriving DecidableEq, Repr

/-- A pagination issue reported by paginator validation: the pydantic error
kind (int parsing vs bound violation) at a parameter location. -/
inductive PagIssue
  | intParsing (loc : String)
  | outOfRange (loc : String)
deriving DecidableEq, Repr

/-- The request-input errors raised through `BaseFilter.get_exception`. -/
inductive FilterError
  | unknownLookup (suffix : String)
  | unknownField (field : String)
  | coercion (fields : List String)
  | pagination (issues : List PagIssue)
  | unknownOrderingField (field : String)
  | orderingNotPermitted (field : String)
  | emptyOrderingKey
deriving DecidableEq, Repr

inductive OrderDir
  | asc
  | desc
deriving DecidableEq, Repr

/-- One conjunct of the compiled query's filter clause:
`getattr(model_field, lookup)(validated value)`. The value is looked up on
the validated model; `none` is unreachable when validation succeeded. -/
structure Predicate where
  field : String
  lookup : String
  value : Option Value
deriving DecidableEq, Repr

/-- One entry of the compiled query's order-by chain: an ordered column, or
the descending search-rank ordering appended by the search stage. -/
inductive OrderClause
  | field (name : String) (dir : OrderDir)
  | searchRank
deriving DecidableEq, Repr

/-- The compiled query value, incrementally amended by the pipeline stages. -/
structure Query where
  filters : List Predicate := []
  searchJoin : Option (String × List String) := none
  orderings : List OrderClause := []
  rowOffset : Option Int := none
  rowLimit : Option Int := none
deriving DecidableEq, Repr

/-- Validated pagination state (`BasePaginator`'s `page`/`per_page`). -/
structure Paginator where
  page : Int
  per_page : Int
deriving DecidableEq, Repr

/-- A `BaseFilter` instance: schema, raw request parameters, the configurable
parameter names, the validated paginator and the query under construction. -/
structure BaseFilter where
  schema : FilterSchema
  query_params : List (String × String)
  ordering_param : String := "order_by"
  search_param : String := "search"
  default_ordering : String := "id"
  paginator : Paginator
  query : Query := {}
deriving DecidableEq, Repr

/-- Coerce one raw string token to the declared type. -/
def coerceScalar : FieldType → String → Option Scalar
  | .int, s => (parsePyInt s).map .int
  | .str, s => some (.str s)

/-- The per-field validator of `BaseFilterSchema`: for the membership lookups
`in_`/`not_in` split the raw value on commas and coerce every token, giving a
sequence; otherwise coerce the raw value directly to one scalar. -/
def validateValue (ft : FieldType) (lookup : String) (raw : String) : Option Value :=
  if lookup == "in_" || lookup == "not_in" then
    ((pySplitComma raw).mapM (coerceScalar ft)).map .seq
  else
    (coerceScalar ft raw).map .scalar

/-- Validate one provided field: resolve its declared type and its lookup from
the validation context; a missing annotation or missing context entry is the
validator's own `ValueError` (unreachable from the filter stage). -/
def validateField (schema : FilterSchema) (ctx : List (String × String))
    (f : String) (raw : String) : Option Value :=
  match schema.lookup f with
  | none => none
  | some fi =>
    match assocGet? ctx f with
    | none => none
    | some lk => validateValue fi.ftype lk raw

/-- `schema.model_validate(obj, context)` over the lookups: the obj and
context dicts are Python dicts keyed by field name (last lookup wins); every
provided field is validated and coercion failures are batched into one error
list naming each offending field. -/
def validateSchema (schema : FilterSchema) (lookups : List LookupInfo) :
    Except (List String) (List (String × Value)) :=
  let obj := dictItems (lookups.map fun l => (l.field_name, l.value))
  let ctx := dictItems (lookups.map fun l => (l.field_name, l.lookup))
  let results := obj.map fun p => (p.1, validateField schema ctx p.1 p.2)
  let errs := (results.filter fun p => p.2.isNone).map Prod.fst
  if errs.isEmpty then
    .ok (results.filterMap fun p => p.2.map fun v => (p.1, v))
  else
    .error errs

/-- The reserved parameter keys skipped by the filter stage. -/
def reservedKey (f : BaseFilter) (key : String) : Bool :=
  key == f.ordering_param || key == f.search_param || key == "page" ||
    key == "per_page"

/-- Parse one `(key, value)` item as `BaseFilter.filter` does: skip reserved
keys; keys splitting on `__` into exactly two parts resolve the suffix in
`ORM_LOOKUP_MAPPING` (miss: `Unknown lookup`, raised before any field check);
any other split shape falls back to the whole key with `__eq__`; finally the
field name must be in the schema (`Unknown filtering field`). -/
def parseItem (f : BaseFilter) (kv : String × String) :
    Except FilterError (Option LookupInfo) :=
  if reservedKey f kv.1 then .ok none
  else
    match pySplitDunder kv.1 with
    | [field_name, query_lookup] =>
      match assocGet? ORM_LOOKUP_MAPPING query_lookup with
      | some lookup =>
        if f.schema.containsField field_name then
          .ok (some ⟨field_name, lookup, kv.2⟩)
        else .error (.unknownField field_name)
      | none => .error (.unknownLookup query_lookup)
    | _ =>
      if f.schema.containsField kv.1 then .ok (some ⟨kv.1, "__eq__", kv.2⟩)
      else .error (.unknownField kv.1)

/-- Run the lookup parser over the items in order, failing fast on the first
offending key. -/
def parseLookups (f : BaseFilter) :
    List (String × String) → Except FilterError (List LookupInfo)
  | [] => .ok []
  | item :: rest =>
    match parseItem f item with
    | .error e => .error e
    | .ok none => parseLookups f rest
    | .ok (some l) =>
      match parseLookups f rest with
      | .error e => .error e
      | .ok others => .ok (l :: others)

/-- The predicate-building loop: one `query.filter(...)` call per lookup, each
reading the validated value for the lookup's field. -/
def applyLookups (q : Query) (validated : List (String × Value))
    (lookups : List LookupInfo) : Query :=
  { q with
    filters := q.filters ++ lookups.map fun l =>
      ⟨l.field_name, l.lookup, assocGet? validated l.field_name⟩ }

/-- Stage 1, `BaseFilter.filter`: parse all non-reserved keys (fail fast),
validate and coerce the values (batched), and conjoin one predicate per
lookup onto the query. -/
def filterStage (f : BaseFilter) : Except FilterError BaseFilter :=
  match parseLookups f (dictItems f.query_params) with
  | .error e => .error e
  | .ok lookups =>
    match validateSchema f.schema lookups with
    | .error errs => .error (.coercion errs)
    | .ok validated =>
      .ok { f with query := applyLookups f.query validated lookups }

/-- The fields participating in free-text search. -/
def searchFields (schema : FilterSchema) : List String :=
  (schema.model_fields.filter fun p => p.2.searchable).map Prod.fst

/-- Stage 2, `BaseFilter.search`: no-op when the search parameter is absent or
empty; otherwise join the similarity ranking over the searchable fields and
append the descending rank ordering. -/
def searchStage (f : BaseFilter) : BaseFilter :=
  match dictGet? f.query_params f.search_param with
  | none => f
  | some s =>
    if s == "" then f
    else
      { f with
        query := { f.query with
          searchJoin := some (s, searchFields f.schema)
          orderings := f.query.orderings ++ [.searchRank] } }

/-- Stage 3, `BaseFilter.order`: absent or empty ordering parameter falls back
to `default_ordering`; a leading `-` selects descending and is stripped, a
leading `+` selects ascending and is stripped, no sign selects ascending; the
resulting name must be a schema field (`Unknown ordering field`) and be
orderable (`Ordering ... is not permitted`). `emptyOrderingKey` models the
Python `IndexError` on `order_by[0]` when the effective string is empty. -/
def effectiveOrderBy (f : BaseFilter) : String :=
  match dictGet? f.query_params f.ordering_param with
  | none => f.default_ordering
  | some s => if s == "" then f.default_ordering else s

/-- Sign handling on the ordering value: a leading `-` selects descending and
is stripped, a leading `+` selects ascending and is stripped, no sign selects
ascending; `none` models the Python `IndexError` on `order_by[0]` for an
empty string. -/
def stripOrderSign (order_by : String) : Option (OrderDir × String) :=
  match order_by.data with
  | [] => none
  | c :: rest =>
    if c = '-' then some (.desc, String.mk rest)
    else if c = '+' then some (.asc, String.mk rest)
    else some (.asc, order_by)

/-- Schema checks and order-by application for a sign-stripped field name. -/
def applyOrdering (f : BaseFilter) (dir : OrderDir) (field_name : String) :
    Except FilterError BaseFilter :=
  match f.schema.lookup field_name with
  | none => .error (.unknownOrderingField field_name)
  | some fi =>
    if fi.orderable then
      .ok { f with
        query := { f.query with
          orderings := f.query.orderings ++ [.field field_name dir] } }
    else .error (.orderingNotPermitted field_name)

/-- Resolve one ordering value: sign handling, then the schema checks. -/
def resolveOrdering (f : BaseFilter) (order_by : String) :
    Except FilterError BaseFilter :=
  match stripOrderSign order_by with
  | none => .error .emptyOrderingKey
  | some p => applyOrdering f p.1 p.2

/-- Stage 3 assembled: fall back to the default, then resolve. -/
def orderStage (f : BaseFilter) : Except FilterError BaseFilter :=
  resolveOrdering f (effectiveOrderBy f)

/-- Stage 4a, `BaseFilter.offset`: `offset = page * per_page`. -/
def offsetStage (f : BaseFilter) : BaseFilter :=
  { f with
    query := { f.query with
      rowOffset := some (f.paginator.page * f.paginator.per_page) } }

/-- Stage 4b, `BaseFilter.limit`: `limit = per_page`. -/
def limitStage (f : BaseFilter) : BaseFilter :=
  { f with query := { f.query with rowLimit := some f.paginator.per_page } }

/-- `BaseFilter.full`: `filter().search().order().offset().limit()`. -/
def full (f : BaseFilter) : Except FilterError BaseFilter :=
  match filterStage f with
  | .error e => .error e
  | .ok f₁ =>
    match orderStage (searchStage f₁) with
    | .error e => .error e
    | .ok f₃ => .ok (limitStage (offsetStage f₃))

/-- Validate the `page` parameter: pydantic coerces the string to an int and
checks `ge=0`; absent means the default `0`. -/
def checkPage : Option String → Except PagIssue Int
  | none => .ok 0
  | some s =>
    match parsePyInt s with
    | none => .error (.intParsing "page")
    | some n => if 0 ≤ n then .ok n else .error (.outOfRange "page")

/-- Validate the `per_page` parameter: coerce to int and check
`ge=1, le=100`; absent means the default `10`. -/
def checkPerPage : Option String → Except PagIssue Int
  | none => .ok 10
  | some s =>
    match parsePyInt s with
    | none => .error (.intParsing "per_page")
    | some n => if 1 ≤ n ∧ n ≤ 100 then .ok n else .error (.outOfRange "per_page")

/-- `paginator_class.model_validate({**query_params, 'results': []})`:
validate both bounds, batching the issues of both parameters into one
pydantic error report; all other parameters are ignored. -/
def mkPaginator (params : List (String × String)) :
    Except (List PagIssue) Paginator :=
  match checkPage (dictGet? params "page"), checkPerPage (dictGet? params "per_page") with
  | .ok p, .ok pp => .ok ⟨p, pp⟩
  | .error e, .ok _ => .error [e]
  | .ok _, .error e => .error [e]
  | .error e₁, .error e₂ => .error [e₁, e₂]

/-- The configurable class attributes of a `BaseFilter` subclass. -/
structure FilterConfig where
  ordering_param : String := "order_by"
  search_param : String := "search"
  default_ordering : String := "id"
deriving DecidableEq, Repr

/-- `BaseFilter.__init__`: build and validate the paginator from the request
parameters (raising the batched pagination issues on failure) and start from
the bare `select` query. -/
def initFilter (schema : FilterSchema) (cfg : FilterConfig)
    (params : List (String × String)) : Except FilterError BaseFilter :=
  match mkPaginator params with
  | .error issues => .error (.pagination issues)
  | .ok pag =>
    .ok { schema := schema, query_params := params
          ordering_param := cfg.ordering_param
          search_param := cfg.search_param
          default_ordering := cfg.default_ordering
          paginator := pag, query := {} }

/-! Concrete schemas and filters used to exercise the pipeline. -/

/-- The spec's running example: `Person{name: str (not orderable, searchable),
age: int (orderable, not searchable)}` plus an orderable `id` key. -/
def schemaPerson : FilterSchema :=
  ⟨[("age", ⟨.int, true, false⟩), ("name", ⟨.str, false, true⟩),
    ("id", ⟨.int, true, true⟩)]⟩

/-- A schema that declares compound names (`a__b__c`, `age__bogus`) as fields
of their own, besides `age`. -/
def schemaCompound : FilterSchema :=
  ⟨[("a__b__c", ⟨.str, true, true⟩), ("age__bogus", ⟨.str, true, true⟩),
    ("age", ⟨.int, true, true⟩), ("id", ⟨.int, true, true⟩)]⟩

/-- A schema with no `id` field at all. -/
def schemaNoId : FilterSchema := ⟨[("age", ⟨.int, true, true⟩)]⟩

/-- A `BaseFilter` over `schemaPerson` with the default class attributes and
an already-validated default paginator. -/
def personFilter (params : List (String × String)) : BaseFilter :=
  { schema := schemaPerson, query_params := params, paginator := ⟨0, 10⟩ }

/-- A `BaseFilter` over `schemaCompound`. -/
def compoundFilter (params : List (String × String)) : BaseFilter :=
  { schema := schemaCompound, query_params := params, paginator := ⟨0, 10⟩ }

/-- A `BaseFilter` over `schemaNoId`. -/
def noIdFilter (params : List (String × String)) : BaseFilter :=
  { schema := schemaNoId, query_params := params, paginator := ⟨0, 10⟩ }

/-! Lemmas about the deduplicating parameter-dict model. -/

/-- Peeling one raw pair off `lastVal?`: the tail's binding wins when present. -/
theorem lastVal?_cons (k0 v0 : String) (ps : List (String × String)) (k : String) :
    lastVal? ((k0, v0) :: ps) k =
      match lastVal? ps k with
      | some w => some w
      | none => if k0 == k then some v0 else none := by
  unfold lastVal?
  rw [List.reverse_cons, List.find?_append]
  cases h : ps.reverse.find? fun p => p.1 == k with
  | none =>
    by_cases hk : k0 == k <;> simp [List.find?, hk, Option.or]
  | some p =>
    simp [Option.or]

theorem lastVal?_cons_ne (k0 v0 : String) (ps : List (String × String))
    (k : String) (h : (k0 == k) = false) :
    lastVal? ((k0, v0) :: ps) k = lastVal? ps k := by
  rw [lastVal?_cons]
  cases hv : lastVal? ps k <;> simp [h]

/-- Keys already emitted never reappear in `dictItemsAux`. -/
theorem assocGet?_dictItemsAux_seen (ps : List (String × String))
    (seen : List String) (k : String) (h : k ∈ seen) :
    assocGet? (dictItemsAux seen ps) k = none := by
  induction ps generalizing seen with
  | nil => simp [dictItemsAux, assocGet?]
  | cons p rest ih =>
    obtain ⟨k0, v0⟩ := p
    by_cases hs : k0 ∈ seen
    · simpa [dictItemsAux, hs] using ih seen h
    · have hne : (k0 == k) = false := by
        simp only [beq_eq_false_iff_ne]
        rintro rfl
        exact hs h
      simp only [dictItemsAux, hs, if_false]
      simp only [assocGet?, List.find?, hne]
      exact ih (k0 :: seen) (List.mem_cons_of_mem _ h)

/-- `dictItemsAux` maps each unseen key to its last observed value. -/
theorem assocGet?_dictItemsAux (ps : List (String × String))
    (seen : List String) (k : String) (h : k ∉ seen) :
    assocGet? (dictItemsAux seen ps) k = lastVal? ps k := by
  induction ps generalizing seen with
  | nil => simp [dictItemsAux, assocGet?, lastVal?]
  | cons p rest ih =>
    obtain ⟨k0, v0⟩ := p
    by_cases hs : k0 ∈ seen
    · have hne : (k0 == k) = false := by
        simp only [beq_eq_false_iff_ne]
        rintro rfl
        exact h hs
      rw [dictItemsAux, if_pos hs, lastVal?_cons_ne _ _ _ _ hne]
      exact ih seen h
    · rw [dictItemsAux, if_neg hs]
      by_cases hk : k0 = k
      · subst hk
        simp only [assocGet?, List.find?, beq_self_eq_true, Option.map_some]
        rw [lastVal?_cons]
        cases hv : lastVal? rest k0 <;> simp
      · have hne : (k0 == k) = false := by simpa using hk
        simp only [assocGet?, List.find?, hne]
        rw [lastVal?_cons_ne _ _ _ _ hne]
        refine ih (k0 :: seen) fun hmem => ?_
        rcases List.mem_cons.mp hmem with rfl | hmem
        · exact hk rfl
        · exact h hmem

/-- The dict model returns the last observed value for every key. -/
theorem assocGet?_dictItems (ps : List (String × String)) (k : String) :
    assocGet? (dictItems ps) k = lastVal? ps k :=
  assocGet?_dictItemsAux ps [] k (by simp)

/-- The keys produced by `dictItemsAux` avoid `seen` and are pairwise
distinct. -/
theorem dictItemsAux_keys_nodup (ps : List (String × String)) (seen : List String) :
    ((dictItemsAux seen ps).map Prod.fst).Nodup ∧
      ∀ k ∈ seen, k ∉ (dictItemsAux seen ps).map Prod.fst := by
  induction ps generalizing seen with
  | nil => simp [dictItemsAux]
  | cons p rest ih =>
    obtain ⟨k0, v0⟩ := p
    by_cases hs : k0 ∈ seen
    · simpa [dictItemsAux, hs] using ih seen
    · obtain ⟨hnd, hav⟩ := ih (k0 :: seen)
      refine ⟨?_, ?_⟩
      · simp only [dictItemsAux, hs, if_false, List.map_cons, List.nodup_cons]
        exact ⟨hav k0 (by simp), hnd⟩
      · intro k hk
        simp only [dictItemsAux, hs, if_false, List.map_cons, List.mem_cons]
        rintro (rfl | hmem)
        · exact hs hk
        · exact hav k (by simp [hk]) hmem

/-- Every key occurs at most once among the deduplicated items. -/
theorem dictItems_count_le_one (ps : List (String × String)) (k : String) :
    ((dictItems ps).map Prod.fst).count k ≤ 1 :=
  (List.nodup_iff_count_le_one.mp (dictItemsAux_keys_nodup ps []).1) k

/-! Lemmas about the lookup parser and the pipeline stages. -/

/-- The lookup produced by one item when its parse is accepted. -/
def acceptedLookup (f : BaseFilter) (it : String × String) : Option LookupInfo :=
  match parseItem f it with
  | .ok o => o
  | .error _ => none

/-- Fail-fast: an offending first key aborts parsing whatever follows. -/
theorem parseLookups_cons_error (f : BaseFilter) (item : String × String)
    (rest : List (String × String)) (e : FilterError)
    (h : parseItem f item = .error e) :
    parseLookups f (item :: rest) = .error e := by
  simp [parseLookups, h]

/-- On success, the parsed lookups are exactly the accepted items in order. -/
theorem parseLookups_ok (f : BaseFilter) (items : List (String × String))
    (ls : List LookupInfo) (h : parseLookups f items = .ok ls) :
    ls = items.filterMap (acceptedLookup f) := by
  induction items generalizing ls with
  | nil =>
    rw [parseLookups] at h
    cases h
    simp
  | cons it rest ih =>
    rw [parseLookups] at h
    cases hi : parseItem f it with
    | error e => rw [hi] at h; cases h
    | ok o =>
      rw [hi] at h
      cases o with
      | none =>
        rw [List.filterMap_cons]
        simp only [acceptedLookup, hi]
        exact ih ls h
      | some l =>
        cases hr : parseLookups f rest with
        | error e => rw [hr] at h; cases h
        | ok others =>
          rw [hr] at h
          cases h
          rw [List.filterMap_cons]
          simp only [acceptedLookup, hi]
          rw [← ih others hr]

/-- The filter stage never touches the paginator, the schema, the raw
parameters or the configured parameter names. -/
theorem filterStage_ok_inv (f g : BaseFilter) (h : filterStage f = .ok g) :
    g.paginator = f.paginator ∧ g.schema = f.schema ∧
      g.query_params = f.query_params ∧ g.ordering_param = f.ordering_param ∧
      g.search_param = f.search_param ∧
      g.default_ordering = f.default_ordering := by
  rw [filterStage] at h
  split at h
  · cases h
  · split at h
    · cases h
    · cases h
      exact ⟨rfl, rfl, rfl, rfl, rfl, rfl⟩

/-- The search stage never touches anything but the query. -/
theorem searchStage_inv (f : BaseFilter) :
    (searchStage f).paginator = f.paginator ∧
      (searchStage f).schema = f.schema ∧
      (searchStage f).query_params = f.query_params ∧
      (searchStage f).ordering_param = f.ordering_param ∧
      (searchStage f).search_param = f.search_param ∧
      (searchStage f).default_ordering = f.default_ordering := by
  rw [searchStage]
  cases dictGet? f.query_params f.search_param with
  | none => exact ⟨rfl, rfl, rfl, rfl, rfl, rfl⟩
  | some s =>
    by_cases hs : (s == "") = true <;>
      simp [hs]

/-- Resolving an ordering never touches anything but the query. -/
theorem resolveOrdering_ok_inv (f g : BaseFilter) (s : String)
    (h : resolveOrdering f s = .ok g) :
    g.paginator = f.paginator ∧ g.query.rowOffset = f.query.rowOffset ∧
      g.query.rowLimit = f.query.rowLimit := by
  rw [resolveOrdering] at h
  cases hso : stripOrderSign s with
  | none => rw [hso] at h; cases h
  | some p =>
    rw [hso] at h
    simp only [applyOrdering] at h
    split at h
    · cases h
    · split at h
      · cases h
        exact ⟨rfl, rfl, rfl⟩
      · cases h

/-- The offset stage sets `offset = page * per_page` and nothing else. -/
theorem offsetStage_query (f : BaseFilter) :
    (offsetStage f).query.rowOffset =
        some (f.paginator.page * f.paginator.per_page) ∧
      (offsetStage f).query.rowLimit = f.query.rowLimit ∧
      (offsetStage f).paginator = f.paginator :=
  ⟨rfl, rfl, rfl⟩

/-- The limit stage sets `limit = per_page` and nothing else. -/
theorem limitStage_query (f : BaseFilter) :
    (limitStage f).query.rowLimit = some f.paginator.per_page ∧
      (limitStage f).query.rowOffset = f.query.rowOffset ∧
      (limitStage f).paginator = f.paginator :=
  ⟨rfl, rfl, rfl⟩

/-! Lemmas about value coercion and batched validation. -/

/-- Token-wise characterisation of coercing a token list. -/
theorem mapM_coerceScalar (ft : FieldType) (toks : List String)
    (vs : List Scalar) :
    toks.mapM (coerceScalar ft) = some vs ↔
      List.Forall₂ (fun t v => coerceScalar ft t = some v) toks vs := by
  induction toks generalizing vs with
  | nil =>
    simp only [List.mapM_nil, pure, Option.some.injEq]
    constructor
    · rintro rfl; exact List.Forall₂.nil
    · intro hf
      cases hf
      rfl
  | cons t rest ih =>
    rw [List.mapM_cons]
    cases hc : coerceScalar ft t with
    | none =>
      constructor
      · intro hmm
        simp at hmm
      · intro hf
        cases hf with
        | cons hhead _ => rw [hc] at hhead; cases hhead
    | some v =>
      constructor
      · intro hmm
        cases hr : rest.mapM (coerceScalar ft) with
        | none =>
          rw [hr] at hmm
          simp at hmm
        | some vs' =>
          rw [hr] at hmm
          simp at hmm
          subst hmm
          exact List.Forall₂.cons hc ((ih vs').mp hr)
      · intro hf
        cases hf with
        | cons hhead htail =>
          rw [hc] at hhead
          cases hhead
          rw [(ih _).mpr htail]
          rfl

/-- Every provided field whose validator fails is named in the batched
error report of `validateSchema`. -/
theorem validateSchema_batches (schema : FilterSchema)
    (lookups : List LookupInfo) (field raw : String)
    (hmem : (field, raw) ∈ dictItems (lookups.map fun l => (l.field_name, l.value)))
    (hfail :
      validateField schema
        (dictItems (lookups.map fun l => (l.field_name, l.lookup))) field raw
        = none) :
    ∃ errs, validateSchema schema lookups = .error errs ∧ field ∈ errs := by
  rw [validateSchema]
  set obj := dictItems (lookups.map fun l => (l.field_name, l.value)) with hobj
  set ctx := dictItems (lookups.map fun l => (l.field_name, l.lookup)) with hctx
  set results := obj.map fun p => (p.1, validateField schema ctx p.1 p.2)
    with hres
  have hin : (field, (none : Option Value)) ∈ results := by
    rw [hres]
    exact List.mem_map.mpr ⟨(field, raw), hmem, by rw [hfail]⟩
  have herr : field ∈ (results.filter fun p => p.2.isNone).map Prod.fst := by
    exact List.mem_map.mpr ⟨(field, none), List.mem_filter.mpr ⟨hin, rfl⟩, rfl⟩
  have hne : ((results.filter fun p => p.2.isNone).map Prod.fst).isEmpty = false := by
    cases hcase : (results.filter fun p => p.2.isNone).map Prod.fst with
    | nil => rw [hcase] at herr; cases herr
    | cons a l => rfl
  rw [if_neg (by rw [hne]; exact fun hc => by cases hc)]
  exact ⟨_, rfl, herr⟩

/-! The claims. -/

/-- C1 counterexample: the key `unknown_field__eq=1` does NOT yield
`UnknownFilterField("unknown_field")` — `eq` is missing from
`ORM_LOOKUP_MAPPING`, so the filter stage fails with
`UnknownLookupOperator("eq")` instead. -/
theorem c1_eq_suffix_counterexample :
    filterStage (personFilter [("unknown_field__eq", "1")]) =
        .error (.unknownLookup "eq") ∧
      FilterError.unknownLookup "eq" ≠
        FilterError.unknownField "unknown_field" := by
  constructor
  · decide
  · decide

/-- C1 (amended): for every request key that splits into a field name and a
suffix actually present in `ORM_LOOKUP_MAPPING` (`neq, gt, gte, lt, lte, in,
not_in, regexp` — not `eq`), where the field is not declared in the schema,
the lookup parser fails with `UnknownFilterField(field)`: the suffix is
accepted as a valid operator and the reported failure is the field-existence
one. -/
theorem c1_valid_suffix_unknown_field (f : BaseFilter)
    (key v field suffix lookup : String)
    (hres : reservedKey f key = false)
    (hsplit : pySplitDunder key = [field, suffix])
    (hmem : (suffix, lookup) ∈ ORM_LOOKUP_MAPPING)
    (hfield : f.schema.containsField field = false) :
    parseItem f (key, v) = .error (.unknownField field) := by
  fin_cases hmem <;>
    simp [parseItem, hres, hsplit, hfield, assocGet?, ORM_LOOKUP_MAPPING]

/-- C1 witness: `unknown_field__gt=1` against the Person schema. -/
theorem c1_valid_suffix_unknown_field_witness :
    parseItem (personFilter []) ("unknown_field__gt", "1") =
      .error (.unknownField "unknown_field") :=
  c1_valid_suffix_unknown_field (personFilter []) "unknown_field__gt" "1"
    "unknown_field" "gt" "__gt__" (by decide) (by decide) (by decide)
    (by decide)

/-- C2: a repeated external key contributes at most one deduplicated item
(whose value is the last observed one), the accepted lookups are exactly the
deduplicated items in order, predicate building adds exactly one predicate
per lookup, and concretely `age__gt=1&age__gt=2` compiles to the single
predicate `age > 2`. -/
theorem c2_duplicate_keys (ps : List (String × String)) (k : String)
    (f : BaseFilter) (ls : List LookupInfo) (q : Query)
    (validated : List (String × Value)) :
    ((dictItems ps).map Prod.fst).count k ≤ 1 ∧
      assocGet? (dictItems ps) k = lastVal? ps k ∧
      (parseLookups f (dictItems ps) = .ok ls →
        ls = (dictItems ps).filterMap (acceptedLookup f)) ∧
      (applyLookups q validated ls).filters.length =
        q.filters.length + ls.length ∧
      filterStage (personFilter [("age__gt", "1"), ("age__gt", "2")]) =
        .ok { personFilter [("age__gt", "1"), ("age__gt", "2")] with
              query := { filters :=
                [⟨"age", "__gt__", some (.scalar (.int 2))⟩] } } := by
  refine ⟨dictItems_count_le_one ps k, assocGet?_dictItems ps k,
    fun h => parseLookups_ok f _ ls h, ?_, by decide⟩
  simp [applyLookups]

/-- C2 witness: the duplicated `age__gt` key yields the single lookup built
from the last value. -/
theorem c2_duplicate_keys_witness :
    [LookupInfo.mk "age" "__gt__" "2"] =
      (dictItems [("age__gt", "1"), ("age__gt", "2")]).filterMap
        (acceptedLookup (personFilter [("age__gt", "1"), ("age__gt", "2")])) :=
  (c2_duplicate_keys [("age__gt", "1"), ("age__gt", "2")] "age__gt"
      (personFilter [("age__gt", "1"), ("age__gt", "2")])
      [LookupInfo.mk "age" "__gt__" "2"] {} []).2.2.1 (by decide)

/-- C3: a non-reserved key splitting into exactly two parts whose suffix is
not in the operator table makes the parser fail with
`UnknownLookupOperator(suffix)` for EVERY schema (the schema is unconstrained
here, so the failure precedes any field-existence check), the filter stage
fails fast on it whatever items follow, and concretely `age__bogus=1` errors
with `Unknown lookup 'bogus'` even against a schema that declares both `age`
and the whole key `age__bogus` as fields. -/
theorem c3_unknown_operator (f : BaseFilter) (key v field suffix : String)
    (hres : reservedKey f key = false)
    (hsplit : pySplitDunder key = [field, suffix])
    (hmiss : assocGet? ORM_LOOKUP_MAPPING suffix = none) :
    parseItem f (key, v) = .error (.unknownLookup suffix) ∧
      (∀ rest, parseLookups f ((key, v) :: rest) =
        .error (.unknownLookup suffix)) ∧
      filterStage (compoundFilter [("age__bogus", "1")]) =
        .error (.unknownLookup "bogus") := by
  have h1 : parseItem f (key, v) = .error (.unknownLookup suffix) := by
    simp [parseItem, hres, hsplit, hmiss]
  exact ⟨h1, fun rest => parseLookups_cons_error f (key, v) rest _ h1,
    by decide⟩

/-- C3 witness: `age__bogus=1` against the Person schema. -/
theorem c3_unknown_operator_witness :
    parseItem (personFilter []) ("age__bogus", "1") =
      .error (.unknownLookup "bogus") :=
  (c3_unknown_operator (personFilter []) "age__bogus" "1" "age" "bogus"
    (by decide) (by decide) (by decide)).1

/-- C9: a non-reserved key splitting on `__` into three or more parts raises
no operator error: the whole unsplit key becomes the field name with the
`__eq__` operator, succeeding exactly when the full key is itself a declared
schema field; concretely `a__b__c` is accepted as an equality lookup on the
declared field `a__b__c` of the compound schema and rejected as
`UnknownFilterField("a__b__c")` by the Person schema. -/
theorem c9_multipart_key (f : BaseFilter) (key v a b c : String)
    (parts : List String)
    (hres : reservedKey f key = false)
    (hsplit : pySplitDunder key = a :: b :: c :: parts) :
    parseItem f (key, v) =
        (if f.schema.containsField key then .ok (some ⟨key, "__eq__", v⟩)
         else .error (.unknownField key)) ∧
      parseItem (compoundFilter []) ("a__b__c", "1") =
        .ok (some ⟨"a__b__c", "__eq__", "1"⟩) ∧
      filterStage (personFilter [("a__b__c", "1")]) =
        .error (.unknownField "a__b__c") := by
  refine ⟨?_, by decide, by decide⟩
  simp only [parseItem, hres, Bool.false_eq_true, if_false, hsplit]

/-- C9 witness: `a__b__c=1` against the Person schema. -/
theorem c9_multipart_key_witness :
    parseItem (personFilter []) ("a__b__c", "1") =
      (if (personFilter []).schema.containsField "a__b__c" then
        .ok (some ⟨"a__b__c", "__eq__", "1"⟩)
       else .error (.unknownField "a__b__c")) :=
  (c9_multipart_key (personFilter []) "a__b__c" "1" "a" "b" "c" []
    (by decide) (by decide)).1

/-- C4: validating with the membership operators splits the raw value on
commas and coerces every token to the declared type (the result is exactly a
sequence coerced token-for-token); any other operator coerces the raw value
directly to one scalar; concretely `age__in=1,2,3` compiles to a membership
predicate against `[1,2,3]` and `age__in=1,2,x` yields the coercion error for
`age`. -/
theorem c4_membership_coercion (ft : FieldType) (lk raw : String)
    (vs : List Scalar)
    (hlk1 : lk ≠ "in_") (hlk2 : lk ≠ "not_in") :
    (validateValue ft "in_" raw = some (.seq vs) ↔
        List.Forall₂ (fun t w => coerceScalar ft t = some w)
          (pySplitComma raw) vs) ∧
      (validateValue ft "not_in" raw = some (.seq vs) ↔
        List.Forall₂ (fun t w => coerceScalar ft t = some w)
          (pySplitComma raw) vs) ∧
      validateValue ft lk raw = (coerceScalar ft raw).map .scalar ∧
      filterStage (personFilter [("age__in", "1,2,3")]) =
        .ok { personFilter [("age__in", "1,2,3")] with
              query := { filters := [⟨"age", "in_",
                some (.seq [.int 1, .int 2, .int 3])⟩] } } ∧
      filterStage (personFilter [("age__in", "1,2,x")]) =
        .error (.coercion ["age"]) := by
  have hseq : ∀ lk', (lk' == "in_" || lk' == "not_in") = true →
      (validateValue ft lk' raw = some (.seq vs) ↔
        List.Forall₂ (fun t w => coerceScalar ft t = some w)
          (pySplitComma raw) vs) := by
    intro lk' hin
    rw [validateValue, if_pos hin, ← mapM_coerceScalar]
    cases hm : (pySplitComma raw).mapM (coerceScalar ft) <;> simp [hm]
  refine ⟨hseq "in_" (by decide), hseq "not_in" (by decide), ?_, by decide,
    by decide⟩
  have h1 : (lk == "in_") = false := beq_eq_false_iff_ne.mpr hlk1
  have h2 : (lk == "not_in") = false := beq_eq_false_iff_ne.mpr hlk2
  rw [validateValue, if_neg (by rw [h1, h2]; exact fun hc => by cases hc)]

/-- C4 witness: the scalar branch at the equality operator, applied to a
concrete coercion. -/
theorem c4_membership_coercion_witness :
    validateValue .int "__eq__" "18" =
      (coerceScalar .int "18").map Value.scalar :=
  (c4_membership_coercion .int "__eq__" "18" [] (by decide) (by decide)).2.2.1

/-- C5: a coercion failure of any provided field always appears in the
batched error report of schema validation (all offending fields are reported
together), whereas lookup-parser errors abort at the first invalid key; the
request `age=x&name=bob&id=y` reports both `age` and `id` in one aggregate
coercion error. -/
theorem c5_batched_coercion (schema : FilterSchema)
    (lookups : List LookupInfo) (field raw : String) (f : BaseFilter)
    (item : String × String) (rest : List (String × String))
    (e : FilterError)
    (hmem : (field, raw) ∈
      dictItems (lookups.map fun l => (l.field_name, l.value)))
    (hfail : validateField schema
      (dictItems (lookups.map fun l => (l.field_name, l.lookup))) field raw
      = none) :
    (∃ errs, validateSchema schema lookups = .error errs ∧ field ∈ errs) ∧
      (parseItem f item = .error e →
        parseLookups f (item :: rest) = .error e) ∧
      filterStage (personFilter [("age", "x"), ("name", "bob"), ("id", "y")]) =
        .error (.coercion ["age", "id"]) :=
  ⟨validateSchema_batches schema lookups field raw hmem hfail,
    fun h => parseLookups_cons_error f item rest e h, by decide⟩

/-- C5 witness: `age=x` fails coercion and `age` is reported. -/
theorem c5_batched_coercion_witness :
    ∃ errs, validateSchema schemaPerson [⟨"age", "__eq__", "x"⟩] =
      .error errs ∧ "age" ∈ errs :=
  (c5_batched_coercion schemaPerson [⟨"age", "__eq__", "x"⟩] "age" "x"
    (personFilter []) ("age", "x") [] (.coercion ["age"]) (by decide)
    (by decide)).1

/-- C6: the ordering stage uses the parameter's value when present and
non-empty and the default field name when absent; a leading `-` selects
descending and is stripped, a leading `+` selects ascending and is stripped,
no sign selects ascending; the resolved name must be a schema field and be
orderable, the latter failing with `OrderingNotPermittedError`; concretely
`order_by=-age` orders descending by `age` and `order_by=name` (with `name`
not orderable) errors. -/
theorem c6_ordering (f : BaseFilter) (s name : String) (c : Char)
    (rest : List Char) (fi : FilterFieldInfo) (dir : OrderDir) :
    (dictGet? f.query_params f.ordering_param = some s → s ≠ "" →
      effectiveOrderBy f = s) ∧
    (dictGet? f.query_params f.ordering_param = none →
      effectiveOrderBy f = f.default_ordering) ∧
    (s.data = '-' :: rest → stripOrderSign s = some (.desc, String.mk rest)) ∧
    (s.data = '+' :: rest → stripOrderSign s = some (.asc, String.mk rest)) ∧
    (s.data = c :: rest → c ≠ '-' → c ≠ '+' →
      stripOrderSign s = some (.asc, s)) ∧
    (f.schema.lookup name = none →
      applyOrdering f dir name = .error (.unknownOrderingField name)) ∧
    (f.schema.lookup name = some fi → fi.orderable = false →
      applyOrdering f dir name = .error (.orderingNotPermitted name)) ∧
    (f.schema.lookup name = some fi → fi.orderable = true →
      applyOrdering f dir name = .ok { f with
        query := { f.query with
          orderings := f.query.orderings ++ [.field name dir] } }) ∧
    orderStage f = resolveOrdering f (effectiveOrderBy f) ∧
    orderStage (personFilter [("order_by", "-age")]) =
      .ok { personFilter [("order_by", "-age")] with
            query := { orderings := [.field "age" .desc] } } ∧
    orderStage (personFilter [("order_by", "name")]) =
      .error (.orderingNotPermitted "name") := by
  refine ⟨?_, ?_, ?_, ?_, ?_, ?_, ?_, ?_, rfl, by decide, by decide⟩
  · intro h hne
    rw [effectiveOrderBy, h]
    have hb : (s == "") = false := beq_eq_false_iff_ne.mpr hne
    simp [hb]
  · intro h
    rw [effectiveOrderBy, h]
  · intro h
    rw [stripOrderSign, h]
    simp
  · intro h
    rw [stripOrderSign, h]
    simp
  · intro h h1 h2
    rw [stripOrderSign, h]
    simp [h1, h2]
  · intro h
    rw [applyOrdering, h]
  · intro h ho
    rw [applyOrdering, h]
    simp [ho]
  · intro h ho
    rw [applyOrdering, h]
    simp [ho]

/-- C6 witness: `-age` strips the sign and selects descending. -/
theorem c6_ordering_witness :
    stripOrderSign "-age" = some (.desc, String.mk ['a', 'g', 'e']) :=
  (c6_ordering (personFilter []) "-age" "age" '-' ['a', 'g', 'e']
    ⟨.int, true, false⟩ .desc).2.2.1 (by decide)

/-- C10: the default ordering field goes through the same schema resolution
as an explicit one: with the ordering parameter absent, a default name (with
no sign prefix) that is not a schema field fails with the unknown-ordering
-field error, and one that is a non-orderable field fails with
`OrderingNotPermittedError`; concretely a schema without `id` rejects every
request that omits `order_by`. -/
theorem c10_default_ordering (f : BaseFilter) (c : Char) (rest : List Char)
    (fi : FilterFieldInfo)
    (habs : dictGet? f.query_params f.ordering_param = none)
    (hdata : f.default_ordering.data = c :: rest)
    (h1 : c ≠ '-') (h2 : c ≠ '+') :
    (f.schema.lookup f.default_ordering = none →
      orderStage f = .error (.unknownOrderingField f.default_ordering)) ∧
    (f.schema.lookup f.default_ordering = some fi → fi.orderable = false →
      orderStage f = .error (.orderingNotPermitted f.default_ordering)) ∧
    orderStage (noIdFilter []) = .error (.unknownOrderingField "id") := by
  have heff : effectiveOrderBy f = f.default_ordering := by
    rw [effectiveOrderBy, habs]
  have hstrip : stripOrderSign f.default_ordering =
      some (.asc, f.default_ordering) := by
    rw [stripOrderSign, hdata]
    simp [h1, h2]
  refine ⟨?_, ?_, by decide⟩
  · intro hl
    rw [orderStage, heff, resolveOrdering, hstrip]
    show applyOrdering f .asc f.default_ordering = _
    rw [applyOrdering, hl]
  · intro hl ho
    rw [orderStage, heff, resolveOrdering, hstrip]
    show applyOrdering f .asc f.default_ordering = _
    rw [applyOrdering, hl]
    simp [ho]

/-- C10 witness: the Person schema without `id` and an empty request. -/
theorem c10_default_ordering_witness :
    orderStage (noIdFilter []) = .error (.unknownOrderingField "id") :=
  (c10_default_ordering (noIdFilter []) 'i' ['d'] ⟨.int, true, true⟩
    (by decide) (by decide) (by decide) (by decide)).1 (by decide)

/-- C7: pagination is validated at construction against `page ≥ 0` and
`1 ≤ per_page ≤ 100` with defaults `0` and `10`; an out-of-range value fails
construction with the range issue reported whatever the other parameters
are, and no pipeline stage ever changes the paginator afterwards. -/
theorem c7_pagination (params : List (String × String)) (s t : String)
    (n m : Int) (schema : FilterSchema) (cfg : FilterConfig)
    (issues : List PagIssue) (f g : BaseFilter) :
    (dictGet? params "page" = some s → parsePyInt s = some n → n < 0 →
      ∃ is', mkPaginator params = .error is' ∧ .outOfRange "page" ∈ is') ∧
    (dictGet? params "per_page" = some t → parsePyInt t = some m →
      (m < 1 ∨ 100 < m) →
      ∃ is', mkPaginator params = .error is' ∧
        .outOfRange "per_page" ∈ is') ∧
    (dictGet? params "page" = none → dictGet? params "per_page" = none →
      mkPaginator params = .ok ⟨0, 10⟩) ∧
    (mkPaginator params = .error issues →
      initFilter schema cfg params = .error (.pagination issues)) ∧
    (filterStage f = .ok g → g.paginator = f.paginator) ∧
    (searchStage f).paginator = f.paginator ∧
    (orderStage f = .ok g → g.paginator = f.paginator) ∧
    (offsetStage f).paginator = f.paginator ∧
    (limitStage f).paginator = f.paginator ∧
    mkPaginator [("page", "-1")] = .error [.outOfRange "page"] ∧
    mkPaginator [("per_page", "150")] = .error [.outOfRange "per_page"] ∧
    mkPaginator [("age__gt", "5"), ("page", "-1"), ("search", "x")] =
      .error [.outOfRange "page"] := by
  refine ⟨?_, ?_, ?_, ?_,
    fun h => (filterStage_ok_inv f g h).1, (searchStage_inv f).1,
    ?_, rfl, rfl, by decide, by decide, by decide⟩
  · intro h hp hn
    have hcp : checkPage (dictGet? params "page") =
        .error (.outOfRange "page") := by
      rw [h]
      simp only [checkPage, hp]
      rw [if_neg (not_le.mpr hn)]
    cases hpp : checkPerPage (dictGet? params "per_page") with
    | error e =>
      exact ⟨[.outOfRange "page", e], by simp [mkPaginator, hcp, hpp],
        by simp⟩
    | ok v =>
      exact ⟨[.outOfRange "page"], by simp [mkPaginator, hcp, hpp], by simp⟩
  · intro h hp hm
    have hcpp : checkPerPage (dictGet? params "per_page") =
        .error (.outOfRange "per_page") := by
      rw [h]
      simp only [checkPerPage, hp]
      rw [if_neg (by omega)]
    cases hcp : checkPage (dictGet? params "page") with
    | error e =>
      exact ⟨[e, .outOfRange "per_page"], by simp [mkPaginator, hcp, hcpp],
        by simp⟩
    | ok v =>
      exact ⟨[.outOfRange "per_page"], by simp [mkPaginator, hcp, hcpp],
        by simp⟩
  · intro h1 h2
    simp [mkPaginator, checkPage, checkPerPage, h1, h2]
  · intro h
    simp [initFilter, h]
  · intro h
    rw [orderStage] at h
    exact (resolveOrdering_ok_inv f g _ h).1

/-- C7 witness: `page=-1` fails construction with the range issue. -/
theorem c7_pagination_witness :
    ∃ is', mkPaginator [("page", "-1")] = .error is' ∧
      PagIssue.outOfRange "page" ∈ is' :=
  (c7_pagination [("page", "-1")] "-1" "10" (-1) 10 schemaPerson {} []
    (personFilter []) (personFilter [])).1 (by decide) (by decide)
    (by decide)

/-- C8: `full()` is exactly filter, then search, then order, then offset,
then limit; the offset stage sets `offset = page * per_page`, the limit
stage sets `limit = per_page`, every successful `full()` run ends with those
values, and concretely `page=1, per_page=5` yields offset `5` and limit `5`.
-/
theorem c8_full_pipeline (f g : BaseFilter) :
    (full f = match filterStage f with
      | .error e => .error e
      | .ok f₁ =>
        match orderStage (searchStage f₁) with
        | .error e => .error e
        | .ok f₃ => .ok (limitStage (offsetStage f₃))) ∧
    (offsetStage f).query.rowOffset =
      some (f.paginator.page * f.paginator.per_page) ∧
    (limitStage f).query.rowLimit = some f.paginator.per_page ∧
    (full f = .ok g →
      g.query.rowOffset = some (f.paginator.page * f.paginator.per_page) ∧
        g.query.rowLimit = some f.paginator.per_page) ∧
    full { personFilter [] with paginator := ⟨1, 5⟩ } =
      .ok { personFilter [] with
            paginator := ⟨1, 5⟩
            query := { orderings := [.field "id" .asc],
                       rowOffset := some 5, rowLimit := some 5 } } := by
  refine ⟨by rw [full], rfl, rfl, ?_, by decide⟩
  intro h
  rw [full] at h
  split at h
  · cases h
  · rename_i f₁ hf₁
    split at h
    · cases h
    · rename_i f₃ hf₃
      cases h
      rw [orderStage] at hf₃
      have h1 := (filterStage_ok_inv f f₁ hf₁).1
      have h2 := (resolveOrdering_ok_inv (searchStage f₁) f₃ _ hf₃).1
      have h3 := (searchStage_inv f₁).1
      constructor
      · rw [(limitStage_query (offsetStage f₃)).2.1,
          (offsetStage_query f₃).1, h2, h3, h1]
      · rw [(limitStage_query (offsetStage f₃)).1,
          (offsetStage_query f₃).2.2, h2, h3, h1]

/-- C8 witness: the successful run at `page=1, per_page=5` has offset `5`
and limit `5`. -/
theorem c8_full_pipeline_witness :
    ({ personFilter [] with
       paginator := ⟨1, 5⟩
       query := { orderings := [.field "id" .asc], rowOffset := some 5,
                  rowLimit := some 5 } } : BaseFilter).query.rowOffset =
        some ((1 : Int) * 5) ∧
      ({ personFilter [] with
         paginator := ⟨1, 5⟩
         query := { orderings := [.field "id" .asc], rowOffset := some 5,
                    rowLimit := some 5 } } : BaseFilter).query.rowLimit =
        some 5 :=
  (c8_full_pipeline { personFilter [] with paginator := ⟨1, 5⟩ }
    { personFilter [] with
      paginator := ⟨1, 5⟩
      query := { orderings := [.field "id" .asc], rowOffset := some 5,
                 rowLimit := some 5 } }).2.2.2.1 (by decide)

end FastapiFilter
